import Mathlib

/-!
Verification of the Media-Compressor repository (src/main.py) against its
natural-language specification.  The Python source is shallowly embedded:
pure computations become Lean functions; the effectful adapters become
functions from an explicit environment (which exceptions the external
calls raise, what the probe returned, whether files exist) to a trace of
performed actions plus the uncaught exception, if any.  Python float
arithmetic such as `int(height * (MAX_SIZE / width))` is embedded as exact
natural-number arithmetic with truncating division; every concrete input
used in a counterexample has been checked by hand to behave identically
under IEEE doubles.
-/

namespace MediaCompressor

/-- Embeds `MAX_SIZE = 1920` (src/main.py line 38). -/
def MAX_SIZE : Nat := 1920

/-- Embeds the fixed video encode profile `VIDEO_CONFIG` (src/main.py lines 41-47). -/
structure VideoConfig where
  vcodec : String
  crf : Nat
  preset : String
  acodec : String
  movflags : String
  deriving DecidableEq, Repr

/-- The constant `VIDEO_CONFIG` dictionary of src/main.py. -/
def VIDEO_CONFIG : VideoConfig :=
  { vcodec := "libx264", crf := 23, preset := "medium",
    acodec := "aac", movflags := "use_metadata_tags" }

/-- Embeds the size computation of `resize_image` (src/main.py lines 157-165):
`if width > MAX_SIZE or height > MAX_SIZE:` then the longer edge becomes
`MAX_SIZE` and the other edge is `int(shorter * (MAX_SIZE / longer))`, a
truncating conversion, embedded as exact truncating Nat division. -/
def resize_image (width height : Nat) : Nat × Nat :=
  if width > MAX_SIZE ∨ height > MAX_SIZE then
    if width > height then (MAX_SIZE, height * MAX_SIZE / width)
    else (width * MAX_SIZE / height, MAX_SIZE)
  else (width, height)

/-- Python's `round(num / den)` on an exact nonnegative rational `num / den`
(round half to even), used to state the spec's rounding claim. -/
def pyRound (num den : Nat) : Nat :=
  let q := num / den
  let r := num % den
  if 2 * r < den then q
  else if den < 2 * r then q + 1
  else if q % 2 = 0 then q else q + 1

/-- Index of the last occurrence of `c` in `l` (Python `str.rfind`, restricted
to found / not-found as an `Option`). -/
def rlastIdx (c : Char) : List Char → Option Nat
  | [] => none
  | x :: xs =>
    match rlastIdx c xs with
    | some i => some (i + 1)
    | none => if x = c then some 0 else none

/-- Embeds Python `os.path.splitext` (as used by `get_output_path`,
src/main.py line 63) on a `/`-separated path given as a character list:
the extension starts at the last `.` of the final path component, unless
every character of that component before the dot is itself a `.`
(so dotfiles like `.bashrc` have no extension). -/
def splitextL (p : List Char) : List Char × List Char :=
  match rlastIdx '.' p with
  | none => (p, [])
  | some d =>
    let fileStart : Nat :=
      match rlastIdx '/' p with
      | some s => s + 1
      | none => 0
    if fileStart ≤ d ∧ ((p.take d).drop fileStart).any (fun ch => ch ≠ '.') then
      (p.take d, p.drop d)
    else (p, [])

/-- Lift of `os.path.splitext` to `String`s. -/
def splitext (p : String) : String × String :=
  let r := splitextL p.data
  (⟨r.1⟩, ⟨r.2⟩)

/-- Embeds `os.path.relpath(input_path, SOURCE_DIR)` (src/main.py line 62)
for the case the dispatcher exercises: `input_path` lies under the source
directory, so the result is the suffix after `SOURCE_DIR + "/"`. -/
def relpathL (p start : List Char) : List Char :=
  if (start ++ ['/']).isPrefixOf p then p.drop (start.length + 1) else p

/-- Embeds `get_output_path` (src/main.py lines 50-71) on character lists.
`sourceDir`/`outputDir` stand for the module constants `SOURCE_DIR` /
`OUTPUT_DIR`.  Python's `if extension:` is false for both `None` and the
empty string; `os.path.join(OUTPUT_DIR, relative_path)` is `/`-joining.
The `os.makedirs` side effect has no counterpart in the path computation. -/
def get_output_pathL (sourceDir outputDir input_path : List Char)
    (extension : Option (List Char)) (include_original_ext : Bool) : List Char :=
  let relative_path := relpathL input_path sourceDir
  let be := splitextL relative_path
  let relative_path2 :=
    match extension with
    | none => relative_path
    | some ext =>
      if ext = [] then relative_path
      else if include_original_ext then be.1 ++ ['_'] ++ be.2.drop 1 ++ ext
      else be.1 ++ ext
  outputDir ++ ['/'] ++ relative_path2

/-- Lift of `get_output_path` to `String`s. -/
def get_output_path (sourceDir outputDir input_path : String)
    (extension : Option String) (include_original_ext : Bool) : String :=
  ⟨get_output_pathL sourceDir.data outputDir.data input_path.data
    (extension.map String.data) include_original_ext⟩

/-- The Python exceptions distinguished by the source's `except` clauses:
`ffmpeg.Error` (caught in `compress_videos`) versus everything else
(e.g. `OSError` from `shutil.copystat`), which that handler does not catch. -/
inductive PyExc
  | ffmpegError
  | osError
  deriving DecidableEq, Repr

/-- Environment of one `compress_videos` call: what the external calls would
do.  `probe` is the result of `get_video_resolution` (`none` embeds the
`(None, None)` failure return, all exceptions inside it being caught there);
`encodeExc` / `copystatExc` are the exceptions the `ffmpeg ... .run()` call
and `shutil.copystat` would raise, if any. -/
structure VideoEnv where
  probe : Option (Nat × Nat)
  encodeExc : Option PyExc
  copystatExc : Option PyExc
  deriving DecidableEq, Repr

/-- Observable side effects of one `compress_videos` call, in order.
`encode b` is the ffmpeg invocation, `b` recording whether the `vf` scale
filter was passed. -/
inductive Action
  | logWarning
  | logInfo
  | logError
  | encode (withFilter : Bool)
  | copystat
  deriving DecidableEq, Repr

/-- Embeds `get_video_resolution` (src/main.py lines 74-93): the probe either
yields a `(width, height)` pair or, any exception having been caught and
logged inside the function, `(None, None)`. -/
def get_video_resolution (env : VideoEnv) : Option (Nat × Nat) :=
  env.probe

/-- The width target of the constant ffmpeg scale-filter expression built at
src/main.py line 124, `if(gt(iw,ih),1920,-2)`, evaluated at the input's
probed dimensions as ffmpeg would. -/
def scale_filter_w (iw ih : Nat) : Int :=
  if iw > ih then (MAX_SIZE : Int) else -2

/-- The height target of the same filter expression,
`if(gt(ih,iw),1920,-2)`. -/
def scale_filter_h (iw ih : Nat) : Int :=
  if ih > iw then (MAX_SIZE : Int) else -2

/-- Embeds `compress_videos` (src/main.py lines 97-143): probe; on probe
failure log a warning, encode without filter, copy timestamps, log, return;
otherwise encode with the scale filter iff a dimension exceeds `MAX_SIZE`,
log, then copy timestamps.  The surrounding `try` catches `ffmpeg.Error`
only (logging the error); any other exception escapes.  Returns the trace
of completed actions and the uncaught exception, if any. -/
def compress_videos (env : VideoEnv) : List Action × Option PyExc :=
  let body : List Action × Option PyExc :=
    match get_video_resolution env with
    | none =>
      match env.encodeExc with
      | some e => ([Action.logWarning], some e)
      | none =>
        match env.copystatExc with
        | some e => ([Action.logWarning, Action.encode false], some e)
        | none =>
          ([Action.logWarning, Action.encode false, Action.copystat,
            Action.logInfo], none)
    | some (w, h) =>
      if w > MAX_SIZE ∨ h > MAX_SIZE then
        match env.encodeExc with
        | some e => ([], some e)
        | none =>
          match env.copystatExc with
          | some e => ([Action.encode true, Action.logInfo], some e)
          | none => ([Action.encode true, Action.logInfo, Action.copystat], none)
      else
        match env.encodeExc with
        | some e => ([], some e)
        | none =>
          match env.copystatExc with
          | some e => ([Action.encode false, Action.logInfo], some e)
          | none => ([Action.encode false, Action.logInfo, Action.copystat], none)
  match body with
  | (tr, some PyExc.ffmpegError) => (tr ++ [Action.logError], none)
  | r => r

/-- Environment of one image-adapter call: `decodeExc` is the exception the
decode step (`Image.open` / `rawpy.imread` / HEIC open) would raise;
`exifPresent` is whether `img.info.get("exif")` is non-`None`; `saveExc` /
`copystatExc` are the exceptions `img.save` and `shutil.copystat` would
raise. -/
structure ImageEnv where
  decodeExc : Option PyExc
  exifPresent : Bool
  saveExc : Option PyExc
  copystatExc : Option PyExc
  deriving DecidableEq, Repr

/-- Observable side effects of the image path, in order. -/
inductive ImgAction
  | saveWithExif
  | saveNoExif
  | copystat
  | logInfo
  | logError
  deriving DecidableEq, Repr

/-- Embeds `save_image_with_resize` (src/main.py lines 170-198): read the
exif blob, resize (pure, see `resize_image`), save with the blob iff present,
copy timestamps, log; the whole body is inside `try ... except Exception`,
so no exception escapes. -/
def save_image_with_resize (env : ImageEnv) : List ImgAction × Option PyExc :=
  let body : List ImgAction × Option PyExc :=
    match env.saveExc with
    | some e => ([], some e)
    | none =>
      let saveAct := if env.exifPresent then ImgAction.saveWithExif
                     else ImgAction.saveNoExif
      match env.copystatExc with
      | some e => ([saveAct], some e)
      | none => ([saveAct, ImgAction.copystat, ImgAction.logInfo], none)
  match body with
  | (tr, some _) => (tr ++ [ImgAction.logError], none)
  | r => r

/-- Embeds `compress_photos` (src/main.py lines 201-218): `Image.open`, then
the shared save routine; `except (IOError, OSError)` and `except Exception`
together catch every exception of the body. -/
def compress_photos (env : ImageEnv) : List ImgAction × Option PyExc :=
  let body : List ImgAction × Option PyExc :=
    match env.decodeExc with
    | some e => ([], some e)
    | none => save_image_with_resize env
  match body with
  | (tr, some _) => (tr ++ [ImgAction.logError], none)
  | r => r

/-- Embeds `compress_raw` (src/main.py lines 221-238): `rawpy` decode, then
the shared save routine; `except Exception` catches everything. -/
def compress_raw (env : ImageEnv) : List ImgAction × Option PyExc :=
  let body : List ImgAction × Option PyExc :=
    match env.decodeExc with
    | some e => ([], some e)
    | none => save_image_with_resize env
  match body with
  | (tr, some _) => (tr ++ [ImgAction.logError], none)
  | r => r

/-- Embeds `compress_heic` (src/main.py lines 247-262): HEIC decode, then
the shared save routine; `except Exception` catches everything. -/
def compress_heic (env : ImageEnv) : List ImgAction × Option PyExc :=
  let body : List ImgAction × Option PyExc :=
    match env.decodeExc with
    | some e => ([], some e)
    | none => save_image_with_resize env
  match body with
  | (tr, some _) => (tr ++ [ImgAction.logError], none)
  | r => r

/-- The media kinds distinguished by the dispatcher's `endswith` chain
(src/main.py lines 285-310). -/
inductive MediaKind
  | video
  | raster
  | raw
  | heic
  | unsupported
  deriving DecidableEq, Repr

/-- The video extension tuple of src/main.py line 285. -/
def videoExts : List String := [".mp4", ".mov", ".avi", ".mkv", ".wmv", ".mts"]

/-- The raster-image extension tuple of src/main.py line 291. -/
def rasterExts : List String := [".jpg", ".jpeg", ".png", ".tiff", ".webp", ".bmp"]

/-- The RAW extension tuple of src/main.py line 297. -/
def rawExts : List String := [".arw", ".nef"]

/-- The HEIC extension tuple of src/main.py line 303. -/
def heicExts : List String := [".heic"]

/-- Python `str.endswith` on ASCII strings. -/
def strEndsWith (s suffixStr : String) : Bool :=
  suffixStr.data.isSuffixOf s.data

/-- Python `str.lower` on ASCII strings (`file.lower()`, src/main.py
line 282). -/
def lowerStr (s : String) : String :=
  ⟨s.data.map Char.toLower⟩

/-- The dispatcher's classification of a file name: the `endswith` chain of
src/main.py lines 285-310, applied to the lower-cased name.  The chain only
inspects a suffix, so applying it to the path relative to the source root
agrees with applying it to the basename whenever the basename carries the
dot extension. -/
def classify (fileName : String) : MediaKind :=
  let fl := lowerStr fileName
  if videoExts.any (fun e => strEndsWith fl e) then MediaKind.video
  else if rasterExts.any (fun e => strEndsWith fl e) then MediaKind.raster
  else if rawExts.any (fun e => strEndsWith fl e) then MediaKind.raw
  else if heicExts.any (fun e => strEndsWith fl e) then MediaKind.heic
  else MediaKind.unsupported

/-- One file as seen by `process_media` in the exception model: its detected
kind, whether its computed output path already exists, and the environments
its adapter would run under. -/
structure FileJob where
  kind : MediaKind
  outputExists : Bool
  venv : VideoEnv
  ienv : ImageEnv
  deriving DecidableEq, Repr

/-- One iteration of the `process_media` loop body (src/main.py lines
280-310) in the exception model: skip if the output exists, otherwise call
the adapter matching the kind; the loop body itself has no `try`, so the
adapter's uncaught exception (if any) is returned. -/
def processOne (f : FileJob) : Option PyExc :=
  if f.outputExists then none
  else
    match f.kind with
    | MediaKind.video => (compress_videos f.venv).2
    | MediaKind.raster => (compress_photos f.ienv).2
    | MediaKind.raw => (compress_raw f.ienv).2
    | MediaKind.heic => (compress_heic f.ienv).2
    | MediaKind.unsupported => none

/-- Embeds the `process_media` walk (src/main.py lines 279-310) in the
exception model: files are visited in order; an exception escaping an
adapter propagates out of the loop (it is only caught at top level, outside
`process_media`).  Returns the escaped exception, if any, and how many
files were visited before the walk stopped. -/
def process_media_run : List FileJob → Option PyExc × Nat
  | [] => (none, 0)
  | f :: fs =>
    match processOne f with
    | some e => (some e, 1)
    | none =>
      let r := process_media_run fs
      (r.1, r.2 + 1)

/-- One file of the source tree in the filesystem-state model: its path
relative to the source root and whether its adapter, when run, succeeds in
producing the output file. -/
structure SrcFile where
  rel : String
  succeeds : Bool
  deriving DecidableEq, Repr

/-- The extension argument each dispatcher branch passes to
`get_output_path` (src/main.py lines 286, 292, 298, 304): videos keep their
container extension, all image kinds are normalized to `.jpg`; every call
leaves `include_original_ext` at its default `False`. -/
def extFor (k : MediaKind) : Option String :=
  match k with
  | MediaKind.video => none
  | MediaKind.unsupported => none
  | _ => some ".jpg"

/-- The output path the dispatcher computes for a source file. -/
def outPathFor (sourceDir outputDir : String) (f : SrcFile) : String :=
  get_output_path sourceDir outputDir (sourceDir ++ "/" ++ f.rel)
    (extFor (classify f.rel)) false

/-- Per-file outcome recorded by the filesystem-state model. -/
inductive FileEvent
  | processed
  | failed
  | skippedExisting
  | skippedUnsupported
  deriving DecidableEq, Repr

/-- Embeds the `process_media` walk (src/main.py lines 279-310) in the
filesystem-state model: the state is the list of output paths that exist;
unsupported files are skipped; a matched file whose output path exists is
skipped (`os.path.exists` check); otherwise its adapter runs and, when it
succeeds, creates the output file.  Returns the final state and the
per-file events in order. -/
def process_media_fs (sourceDir outputDir : String) :
    List SrcFile → List String → List String × List FileEvent
  | [], st => (st, [])
  | f :: fs, st =>
    match classify f.rel with
    | MediaKind.unsupported =>
      let r := process_media_fs sourceDir outputDir fs st
      (r.1, FileEvent.skippedUnsupported :: r.2)
    | _ =>
      let op := outPathFor sourceDir outputDir f
      if op ∈ st then
        let r := process_media_fs sourceDir outputDir fs st
        (r.1, FileEvent.skippedExisting :: r.2)
      else
        let st1 := if f.succeeds then op :: st else st
        let r := process_media_fs sourceDir outputDir fs st1
        (r.1, (if f.succeeds then FileEvent.processed else FileEvent.failed) :: r.2)

/-! ### Helper lemmas about the path mapper -/

theorem rlastIdx_eq_none_of_not_mem {c : Char} :
    ∀ {l : List Char}, c ∉ l → rlastIdx c l = none
  | [], _ => rfl
  | x :: xs, h => by
    have hx : ¬x = c := fun hxc => h (hxc ▸ List.mem_cons_self x xs)
    have hxs : c ∉ xs := fun hm => h (List.mem_cons_of_mem x hm)
    simp [rlastIdx, rlastIdx_eq_none_of_not_mem hxs, hx]

theorem rlastIdx_append_of_not_mem {c : Char} {ys : List Char} (h : c ∉ ys) :
    ∀ (xs : List Char), rlastIdx c (xs ++ ys) = rlastIdx c xs
  | [] => by simp [rlastIdx_eq_none_of_not_mem h, rlastIdx]
  | x :: xs => by
    have ih := rlastIdx_append_of_not_mem h xs
    simp [List.cons_append, rlastIdx, ih]

theorem rlastIdx_append_cons {c : Char} {ys : List Char} (h : c ∉ ys) :
    ∀ (xs : List Char), rlastIdx c (xs ++ c :: ys) = some xs.length
  | [] => by simp [rlastIdx, rlastIdx_eq_none_of_not_mem h]
  | x :: xs => by
    have ih := rlastIdx_append_cons h xs
    simp [List.cons_append, rlastIdx, ih]

theorem rlastIdx_lt_length {c : Char} :
    ∀ {l : List Char} {i : Nat}, rlastIdx c l = some i → i < l.length
  | x :: xs, i, h => by
    cases h' : rlastIdx c xs with
    | some j =>
      have hj : j < xs.length := rlastIdx_lt_length h'
      simp only [rlastIdx, h'] at h
      cases h
      simpa using Nat.succ_lt_succ hj
    | none =>
      simp only [rlastIdx, h'] at h
      by_cases hx : x = c
      · simp [hx] at h
        cases h
        simp
      · simp [hx] at h

theorem isPrefixOf_refl_append : ∀ (l r : List Char), l.isPrefixOf (l ++ r) = true
  | [], r => by simp [List.isPrefixOf]
  | a :: l, r => by simp [List.isPrefixOf, isPrefixOf_refl_append l r]

theorem relpathL_under (start rel : List Char) :
    relpathL (start ++ '/' :: rel) start = rel := by
  have hsplit : start ++ '/' :: rel = (start ++ ['/']) ++ rel := by simp
  rw [relpathL, hsplit, if_pos (isPrefixOf_refl_append (start ++ ['/']) rel)]
  have hlen : start.length + 1 = (start ++ ['/']).length := by simp
  rw [hlen, List.drop_left]

theorem splitext_cond_holds (stem' : List Char) (c0 : Char) (tail : List Char)
    (hc : c0 ≠ '.') {fs : Nat} (hfs : fs ≤ stem'.length) :
    fs ≤ (stem' ++ [c0]).length ∧
      ((((stem' ++ [c0]) ++ '.' :: tail).take (stem' ++ [c0]).length).drop fs).any
        (fun ch => ch ≠ '.') = true := by
  constructor
  · calc fs ≤ stem'.length := hfs
      _ ≤ (stem' ++ [c0]).length := by simp
  · rw [List.take_left, List.drop_append_of_le_length hfs]
    simp [hc]

theorem splitextL_split (stem' : List Char) (c0 : Char) (tail : List Char)
    (hc : c0 ≠ '.') (hc' : c0 ≠ '/') (ht : '.' ∉ tail) (ht' : '/' ∉ tail) :
    splitextL ((stem' ++ [c0]) ++ '.' :: tail) = (stem' ++ [c0], '.' :: tail) := by
  have hdot : rlastIdx '.' ((stem' ++ [c0]) ++ '.' :: tail)
      = some (stem' ++ [c0]).length := rlastIdx_append_cons ht (stem' ++ [c0])
  have hslash1 : ('/' : Char) ∉ '.' :: tail := by
    intro hm
    rcases List.mem_cons.mp hm with h1 | h1
    · exact absurd h1 (by decide)
    · exact ht' h1
  have hslash2 : ('/' : Char) ∉ [c0] := by
    intro hm
    rcases List.mem_cons.mp hm with h1 | h1
    · exact hc' h1.symm
    · exact absurd h1 (List.not_mem_nil _)
  have hsl : rlastIdx '/' ((stem' ++ [c0]) ++ '.' :: tail) = rlastIdx '/' stem' := by
    rw [rlastIdx_append_of_not_mem hslash1 (stem' ++ [c0]),
      rlastIdx_append_of_not_mem hslash2 stem']
  have htake : ((stem' ++ [c0]) ++ '.' :: tail).take (stem' ++ [c0]).length
      = stem' ++ [c0] := List.take_left _ _
  have hdrop : ((stem' ++ [c0]) ++ '.' :: tail).drop (stem' ++ [c0]).length
      = '.' :: tail := List.drop_left _ _
  cases h' : rlastIdx '/' stem' with
  | none =>
    have hsl0 : rlastIdx '/' ((stem' ++ [c0]) ++ '.' :: tail) = none := hsl.trans h'
    have hcond := splitext_cond_holds stem' c0 tail hc (Nat.zero_le stem'.length)
    simp only [splitextL, hdot, hsl0]
    rw [if_pos hcond, htake, hdrop]
  | some s =>
    have hsl0 : rlastIdx '/' ((stem' ++ [c0]) ++ '.' :: tail) = some s := hsl.trans h'
    have hfs : s + 1 ≤ stem'.length := rlastIdx_lt_length h'
    have hcond := splitext_cond_holds stem' c0 tail hc hfs
    simp only [splitextL, hdot, hsl0]
    rw [if_pos hcond, htake, hdrop]

theorem get_output_pathL_under (src out stem' : List Char) (c0 : Char)
    (tail ext : List Char) (hc : c0 ≠ '.') (hc' : c0 ≠ '/')
    (ht : '.' ∉ tail) (ht' : '/' ∉ tail) (he : ext ≠ []) :
    get_output_pathL src out (src ++ '/' :: ((stem' ++ [c0]) ++ '.' :: tail))
        (some ext) false = out ++ '/' :: ((stem' ++ [c0]) ++ ext)
    ∧ get_output_pathL src out (src ++ '/' :: ((stem' ++ [c0]) ++ '.' :: tail))
        (some ext) true
        = out ++ '/' :: ((stem' ++ [c0]) ++ '_' :: (tail ++ ext))
    ∧ get_output_pathL src out (src ++ '/' :: ((stem' ++ [c0]) ++ '.' :: tail))
        none false = out ++ '/' :: ((stem' ++ [c0]) ++ '.' :: tail) := by
  have hrel := relpathL_under src ((stem' ++ [c0]) ++ '.' :: tail)
  have hsplit := splitextL_split stem' c0 tail hc hc' ht ht'
  refine ⟨?_, ?_, ?_⟩
  · simp only [get_output_pathL, hrel, hsplit, if_neg he]
    simp
  · simp only [get_output_pathL, hrel, hsplit, if_neg he]
    simp
  · simp only [get_output_pathL, hrel]
    simp

theorem stringDataEq {s t : String} (h : s.data = t.data) : s = t := by
  cases s
  cases t
  cases h
  rfl

theorem data_slash : ("/" : String).data = ['/'] := rfl

theorem data_underscore : ("_" : String).data = ['_'] := rfl

/-- String-level consequence of `get_output_pathL_under`: for an input under
the source root whose relative path is `stem.ext` (a well-formed stem
followed by a single dot extension), `get_output_path` rewrites the
extension, optionally keeping the original one as a stem suffix, and keeps
the path when no extension is given. -/
theorem get_output_path_under (src out ext : String) (stem' : List Char)
    (c0 : Char) (tail : List Char) (hc : c0 ≠ '.') (hc' : c0 ≠ '/')
    (ht : '.' ∉ tail) (ht' : '/' ∉ tail) (he : ext.data ≠ []) :
    get_output_path src out (src ++ "/" ++ ⟨(stem' ++ [c0]) ++ '.' :: tail⟩)
        (some ext) false
      = out ++ "/" ++ ⟨stem' ++ [c0]⟩ ++ ext
    ∧ get_output_path src out (src ++ "/" ++ ⟨(stem' ++ [c0]) ++ '.' :: tail⟩)
        (some ext) true
      = out ++ "/" ++ ⟨stem' ++ [c0]⟩ ++ "_" ++ ⟨tail⟩ ++ ext
    ∧ get_output_path src out (src ++ "/" ++ ⟨(stem' ++ [c0]) ++ '.' :: tail⟩)
        none false
      = out ++ "/" ++ ⟨(stem' ++ [c0]) ++ '.' :: tail⟩ := by
  have hL := get_output_pathL_under src.data out.data stem' c0 tail ext.data
    hc hc' ht ht' he
  simp only [String.data_append, data_slash, List.singleton_append,
    List.append_assoc, List.cons_append] at hL
  refine ⟨stringDataEq ?_, stringDataEq ?_, stringDataEq ?_⟩
  · simp only [get_output_path, Option.map_some']
    simp only [String.data_append, data_slash]
    simp only [List.singleton_append, List.append_assoc, List.cons_append]
    exact hL.1
  · simp only [get_output_path, Option.map_some']
    simp only [String.data_append, data_slash, data_underscore]
    simp only [List.singleton_append, List.append_assoc, List.cons_append]
    exact hL.2.1
  · simp only [get_output_path, Option.map_none']
    simp only [String.data_append, data_slash]
    simp only [List.singleton_append, List.append_assoc, List.cons_append]
    exact hL.2.2

/-! ### Claim theorems: resolution policy -/

/-- C4: for every (width, height) with max(width, height) ≤ MAX_SIZE (1920),
the resize policy (`resize_image`) returns the source dimensions unchanged —
no upscaling ever occurs. -/
theorem resize_no_upscale (w h : Nat) (hmax : max w h ≤ MAX_SIZE) :
    resize_image w h = (w, h) := by
  have hneg : ¬(w > MAX_SIZE ∨ h > MAX_SIZE) := by
    rw [max_le_iff] at hmax
    intro hcase
    rcases hcase with h1 | h1
    · exact absurd hmax.1 (not_le.mpr h1)
    · exact absurd hmax.2 (not_le.mpr h1)
  rw [resize_image, if_neg hneg]

/-- Witness for C4 at the concrete input 800×600. -/
theorem resize_no_upscale_witness :
    max 800 600 ≤ MAX_SIZE ∧ resize_image 800 600 = (800, 600) :=
  ⟨by decide, resize_no_upscale 800 600 (by decide)⟩

/-- C1 counterexample: at 2000×1001 the code returns shorter edge
`int(1001 * 1920 / 2000) = 960` (truncation), while the claim's
`round(1001 * 1920 / 2000)` is 961. -/
theorem resize_truncates_not_rounds :
    resize_image 2000 1001 = (MAX_SIZE, 960)
    ∧ pyRound (1001 * MAX_SIZE) 2000 = 961 := by decide

/-- C1 (amended): for every (width, height) with max(width, height) >
MAX_SIZE, the resize policy returns target dimensions whose longer edge is
exactly MAX_SIZE and whose shorter edge is the truncation
⌊shorter · MAX_SIZE / longer⌋ (Python `int()`), which can be one less than
`round(shorter · MAX_SIZE / longer)`. -/
theorem resize_caps_longer_edge (w h : Nat) (hmax : MAX_SIZE < max w h) :
    max (resize_image w h).1 (resize_image w h).2 = MAX_SIZE
    ∧ min (resize_image w h).1 (resize_image w h).2
        = min w h * MAX_SIZE / max w h := by
  have hcond : w > MAX_SIZE ∨ h > MAX_SIZE := lt_max_iff.mp hmax
  rw [resize_image, if_pos hcond]
  by_cases hwh : w > h
  · have hmaxw : max w h = w := max_eq_left (le_of_lt hwh)
    have hw : MAX_SIZE < w := hmaxw ▸ hmax
    have hw0 : 0 < w := lt_trans (by decide) hw
    have hle : h * MAX_SIZE / w ≤ MAX_SIZE := by
      have h1 : h * MAX_SIZE ≤ w * MAX_SIZE :=
        Nat.mul_le_mul_right _ (le_of_lt hwh)
      have h2 : h * MAX_SIZE / w ≤ w * MAX_SIZE / w := Nat.div_le_div_right h1
      rwa [Nat.mul_div_cancel_left _ hw0] at h2
    rw [if_pos hwh]
    refine ⟨max_eq_left hle, ?_⟩
    rw [min_eq_right hle, min_eq_right (le_of_lt hwh), hmaxw]
  · have hhw : w ≤ h := le_of_not_lt hwh
    have hmaxh : max w h = h := max_eq_right hhw
    have hh : MAX_SIZE < h := hmaxh ▸ hmax
    have hh0 : 0 < h := lt_trans (by decide) hh
    have hle : w * MAX_SIZE / h ≤ MAX_SIZE := by
      have h1 : w * MAX_SIZE ≤ h * MAX_SIZE := Nat.mul_le_mul_right _ hhw
      have h2 : w * MAX_SIZE / h ≤ h * MAX_SIZE / h := Nat.div_le_div_right h1
      rwa [Nat.mul_div_cancel_left _ hh0] at h2
    rw [if_neg hwh]
    refine ⟨max_eq_right hle, ?_⟩
    rw [min_eq_left hle, min_eq_left hhw, hmaxh]

/-- Witness for the amended C1 at the spec's own scenario 4000×3000
(target 1920×1440). -/
theorem resize_caps_longer_edge_witness :
    MAX_SIZE < max 4000 3000
    ∧ (max (resize_image 4000 3000).1 (resize_image 4000 3000).2 = MAX_SIZE
       ∧ min (resize_image 4000 3000).1 (resize_image 4000 3000).2
           = min 4000 3000 * MAX_SIZE / max 4000 3000) :=
  ⟨by decide, resize_caps_longer_edge 4000 3000 (by decide)⟩

/-- C10: the resize policy does not keep both target dimensions positive —
at 4000×1 the guard fires (max exceeds MAX_SIZE) and the computed shorter
edge `int(1 * (1920 / 4000))` is 0, so the subsequent `img.resize` call
receives a zero dimension. -/
theorem resize_can_return_zero :
    MAX_SIZE < max 4000 1 ∧ resize_image 4000 1 = (MAX_SIZE, 0) := by decide

/-! ### Claim theorems: video scale filter -/

/-- C2 (code bug at width = height): for the square source 2000×2000 the
guard `width > MAX_SIZE or height > MAX_SIZE` fires and the scale-filter
encode path is taken, yet the constant filter expression assigns `-2` to
BOTH dimensions — `if(gt(iw,ih),1920,-2)` and `if(gt(ih,iw),1920,-2)` are
both in their else arm — so no edge is set to MAX_SIZE and the square video
is not reduced, although the code logs it as reduced; for a non-square
source such as 3840×2160 the filter does assign MAX_SIZE to the longer edge
and `-2` to the other. -/
theorem square_video_filter_degenerates :
    (2000 > MAX_SIZE ∨ 2000 > MAX_SIZE)
    ∧ (compress_videos ⟨some (2000, 2000), none, none⟩).1
        = [Action.encode true, Action.logInfo, Action.copystat]
    ∧ scale_filter_w 2000 2000 = -2 ∧ scale_filter_h 2000 2000 = -2
    ∧ scale_filter_w 3840 2160 = (MAX_SIZE : Int)
    ∧ scale_filter_h 3840 2160 = -2 := by decide

/-! ### Helper lemmas about exception propagation -/

theorem save_image_with_resize_never_escapes (env : ImageEnv) :
    (save_image_with_resize env).2 = none := by
  rcases env with ⟨d, ex, s, c⟩
  cases s <;> cases c <;> cases ex <;> simp [save_image_with_resize]

theorem compress_photos_never_escapes (env : ImageEnv) :
    (compress_photos env).2 = none := by
  rcases env with ⟨d, ex, s, c⟩
  cases d with
  | some e => simp [compress_photos]
  | none =>
    have h := save_image_with_resize_never_escapes ⟨none, ex, s, c⟩
    rcases hs : save_image_with_resize ⟨none, ex, s, c⟩ with ⟨tr, exc⟩
    rw [hs] at h
    simp only at h
    subst h
    simp [compress_photos, hs]

theorem compress_raw_never_escapes (env : ImageEnv) :
    (compress_raw env).2 = none := by
  rcases env with ⟨d, ex, s, c⟩
  cases d with
  | some e => simp [compress_raw]
  | none =>
    have h := save_image_with_resize_never_escapes ⟨none, ex, s, c⟩
    rcases hs : save_image_with_resize ⟨none, ex, s, c⟩ with ⟨tr, exc⟩
    rw [hs] at h
    simp only at h
    subst h
    simp [compress_raw, hs]

theorem compress_heic_never_escapes (env : ImageEnv) :
    (compress_heic env).2 = none := by
  rcases env with ⟨d, ex, s, c⟩
  cases d with
  | some e => simp [compress_heic]
  | none =>
    have h := save_image_with_resize_never_escapes ⟨none, ex, s, c⟩
    rcases hs : save_image_with_resize ⟨none, ex, s, c⟩ with ⟨tr, exc⟩
    rw [hs] at h
    simp only at h
    subst h
    simp [compress_heic, hs]

theorem compress_videos_only_ffmpeg_caught (env : VideoEnv)
    (he : env.encodeExc = none ∨ env.encodeExc = some PyExc.ffmpegError)
    (hc : env.copystatExc = none ∨ env.copystatExc = some PyExc.ffmpegError) :
    (compress_videos env).2 = none := by
  rcases env with ⟨p, e, c⟩
  simp only at he hc
  rcases p with _ | ⟨w, h⟩
  · rcases he with rfl | rfl <;> rcases hc with rfl | rfl <;>
      simp [compress_videos, get_video_resolution]
  · by_cases hf : w > MAX_SIZE ∨ h > MAX_SIZE <;>
      rcases he with rfl | rfl <;> rcases hc with rfl | rfl <;>
      simp [compress_videos, get_video_resolution, hf]

/-! ### Claim theorems: error handling and timestamps -/

/-- C3 counterexample: a non-ffmpeg exception (an `OSError` raised by
`shutil.copystat`) inside the video adapter is not caught by its
`except ffmpeg.Error` handler and aborts the walk: of the two files below,
only the first is visited and the exception escapes `process_media`. -/
theorem video_oserror_aborts_walk :
    process_media_run
      [⟨MediaKind.video, false, ⟨some (100, 100), none, some PyExc.osError⟩,
        ⟨none, false, none, none⟩⟩,
       ⟨MediaKind.raster, false, ⟨none, none, none⟩,
        ⟨none, true, none, none⟩⟩]
      = (some PyExc.osError, 1)
    ∧ ([⟨MediaKind.video, false, ⟨some (100, 100), none, some PyExc.osError⟩,
        ⟨none, false, none, none⟩⟩,
       ⟨MediaKind.raster, false, ⟨none, none, none⟩,
        ⟨none, true, none, none⟩⟩] : List FileJob).length = 2 := by decide

/-- C3 (amended): failures inside the image, RAW and HEIC adapters are
always caught and the walk continues; failures inside the video adapter
are caught only when they are `ffmpeg.Error`s — under that proviso no
per-file failure aborts the walk, every file is visited and nothing
escapes `process_media`. -/
theorem adapter_failures_isolated (jobs : List FileJob)
    (hv : ∀ f ∈ jobs, f.kind = MediaKind.video →
      (f.venv.encodeExc = none ∨ f.venv.encodeExc = some PyExc.ffmpegError)
      ∧ (f.venv.copystatExc = none ∨ f.venv.copystatExc = some PyExc.ffmpegError)) :
    process_media_run jobs = (none, jobs.length) := by
  induction jobs with
  | nil => rfl
  | cons f fs ih =>
    have hone : processOne f = none := by
      rcases hoe : f.outputExists with _ | _
      · rcases hk : f.kind
        · have hf := hv f (List.mem_cons_self f fs) hk
          simp [processOne, hoe, hk,
            compress_videos_only_ffmpeg_caught f.venv hf.1 hf.2]
        · simp [processOne, hoe, hk, compress_photos_never_escapes]
        · simp [processOne, hoe, hk, compress_raw_never_escapes]
        · simp [processOne, hoe, hk, compress_heic_never_escapes]
        · simp [processOne, hoe, hk]
      · simp [processOne, hoe]
    have htail := ih (fun g hg => hv g (List.mem_cons_of_mem f hg))
    simp [process_media_run, hone, htail]

/-- Witness for the amended C3: a video whose encode raises `ffmpeg.Error`
followed by a raster image whose decode raises — both failures are isolated
and both files are visited. -/
theorem adapter_failures_isolated_witness :
    process_media_run
      [⟨MediaKind.video, false, ⟨some (3840, 2160), some PyExc.ffmpegError, none⟩,
        ⟨none, false, none, none⟩⟩,
       ⟨MediaKind.raster, false, ⟨none, none, none⟩,
        ⟨some PyExc.osError, true, none, none⟩⟩]
      = (none, 2) :=
  adapter_failures_isolated
    [⟨MediaKind.video, false, ⟨some (3840, 2160), some PyExc.ffmpegError, none⟩,
      ⟨none, false, none, none⟩⟩,
     ⟨MediaKind.raster, false, ⟨none, none, none⟩,
      ⟨some PyExc.osError, true, none, none⟩⟩]
    (by decide)

/-- C6: after a successful transform, `shutil.copystat` copies the
filesystem timestamps from input to output — for images this happens even
when no exif blob was present (the quantification covers
`exifPresent = false`), and for videos in every successful encode path. -/
theorem timestamps_copied_after_success :
    (∀ env : ImageEnv, env.saveExc = none → env.copystatExc = none →
      ImgAction.copystat ∈ (save_image_with_resize env).1)
    ∧ (∀ env : VideoEnv, env.encodeExc = none → env.copystatExc = none →
      Action.copystat ∈ (compress_videos env).1) := by
  constructor
  · intro env hs hcp
    rcases env with ⟨d, ex, s, c⟩
    simp only at hs hcp
    subst hs
    subst hcp
    cases ex <;> simp [save_image_with_resize]
  · intro env he hcp
    rcases env with ⟨p, e, c⟩
    simp only at he hcp
    subst he
    subst hcp
    rcases p with _ | ⟨w, h⟩
    · simp [compress_videos, get_video_resolution]
    · by_cases hf : w > MAX_SIZE ∨ h > MAX_SIZE <;>
        simp [compress_videos, get_video_resolution, hf]

/-- Witness for C6: an image with no exif blob and a 3840×2160 video, both
successful — the timestamp copy appears in both traces. -/
theorem timestamps_copied_after_success_witness :
    ImgAction.copystat ∈ (save_image_with_resize ⟨none, false, none, none⟩).1
    ∧ Action.copystat ∈ (compress_videos ⟨some (3840, 2160), none, none⟩).1 :=
  ⟨timestamps_copied_after_success.1 ⟨none, false, none, none⟩ rfl rfl,
   timestamps_copied_after_success.2 ⟨some (3840, 2160), none, none⟩ rfl rfl⟩

/-- C7: when the resolution probe fails, `compress_videos` logs a warning,
does not skip the file but re-encodes it without a scale filter (native
resolution, fixed profile), copies the timestamps on success, and nothing
escapes. -/
theorem probe_failure_degraded_path (env : VideoEnv) (hp : env.probe = none)
    (he : env.encodeExc = none) (hc : env.copystatExc = none) :
    compress_videos env
      = ([Action.logWarning, Action.encode false, Action.copystat,
          Action.logInfo], none) := by
  rcases env with ⟨p, e, c⟩
  simp only at hp he hc
  subst hp
  subst he
  subst hc
  rfl

/-- Witness for C7 at the concrete probe-failure environment. -/
theorem probe_failure_degraded_path_witness :
    compress_videos ⟨none, none, none⟩
      = ([Action.logWarning, Action.encode false, Action.copystat,
          Action.logInfo], none) :=
  probe_failure_degraded_path ⟨none, none, none⟩ rfl rfl rfl

/-! ### Claim theorems: path mapper and dispatcher collisions -/

/-- C8: for an input under the source root whose relative path is a
well-formed `stem.ext`, `get_output_path` relocates it under the output
root: unchanged when no extension is supplied, with the extension replaced
when one is supplied, and, when `include_original_ext` is set, with the
original extension (without its dot) appended to the stem after an
underscore before the new extension. -/
theorem mapper_maps_under_output_root (src out ext : String)
    (stem' : List Char) (c0 : Char) (tail : List Char)
    (hc : c0 ≠ '.') (hc' : c0 ≠ '/') (ht : '.' ∉ tail) (ht' : '/' ∉ tail)
    (he : ext.data ≠ []) :
    get_output_path src out (src ++ "/" ++ ⟨(stem' ++ [c0]) ++ '.' :: tail⟩)
        none false
      = out ++ "/" ++ ⟨(stem' ++ [c0]) ++ '.' :: tail⟩
    ∧ get_output_path src out (src ++ "/" ++ ⟨(stem' ++ [c0]) ++ '.' :: tail⟩)
        (some ext) false
      = out ++ "/" ++ ⟨stem' ++ [c0]⟩ ++ ext
    ∧ get_output_path src out (src ++ "/" ++ ⟨(stem' ++ [c0]) ++ '.' :: tail⟩)
        (some ext) true
      = out ++ "/" ++ ⟨stem' ++ [c0]⟩ ++ "_" ++ ⟨tail⟩ ++ ext := by
  have h := get_output_path_under src out ext stem' c0 tail hc hc' ht ht' he
  exact ⟨h.2.2, h.1, h.2.1⟩

/-- Witness for C8: `photo.raw` with new extension `.jpg` and the
original-extension suffix enabled maps to `photo_raw.jpg`. -/
theorem mapper_maps_under_output_root_witness :
    get_output_path "/data/in" "/data/out"
        ("/data/in" ++ "/" ++ ⟨(['p', 'h', 'o', 't'] ++ ['o']) ++ '.' :: ['r', 'a', 'w']⟩)
        (some ".jpg") true
      = "/data/out" ++ "/" ++ (⟨['p', 'h', 'o', 't'] ++ ['o']⟩ : String)
          ++ "_" ++ (⟨['r', 'a', 'w']⟩ : String) ++ ".jpg"
    ∧ ("/data/out" ++ "/" ++ (⟨['p', 'h', 'o', 't'] ++ ['o']⟩ : String)
          ++ "_" ++ (⟨['r', 'a', 'w']⟩ : String) ++ ".jpg" : String)
      = "/data/out/photo_raw.jpg" :=
  ⟨(mapper_maps_under_output_root "/data/in" "/data/out" ".jpg"
      ['p', 'h', 'o', 't'] 'o' ['r', 'a', 'w'] (by decide) (by decide)
      (by decide) (by decide) (by decide)).2.2,
   by decide⟩

/-- The nine image-kind extensions (raster, RAW, HEIC), all of which the
dispatcher sends through `get_output_path` with new extension `.jpg` and
`include_original_ext` left `False`. -/
def imageExts : List String := rasterExts ++ rawExts ++ heicExts

theorem imageExt_shape {e : String} (he : e ∈ imageExts) :
    ∃ tail : List Char, e.data = '.' :: tail ∧ '.' ∉ tail ∧ '/' ∉ tail := by
  simp only [imageExts, rasterExts, rawExts, heicExts, List.append_assoc,
    List.cons_append, List.nil_append, List.mem_cons,
    List.not_mem_nil, or_false] at he
  rcases he with rfl | rfl | rfl | rfl | rfl | rfl | rfl | rfl | rfl <;>
    exact ⟨_, rfl, by decide, by decide⟩

/-- C9: the dispatcher always calls the path mapper with the
original-extension suffix disabled, so two image-kind files whose names
differ only in extension map to the identical `.jpg` output path; in a
concrete run over `photo.png` then `photo.arw`, the second file is skipped
as already existing and produces no output of its own. -/
theorem same_stem_images_collide :
    (∀ (src out : String) (stem' : List Char) (c0 : Char) (e1 e2 : String),
      e1 ∈ imageExts → e2 ∈ imageExts → c0 ≠ '.' → c0 ≠ '/' →
      get_output_path src out
          (src ++ "/" ++ (⟨stem' ++ [c0]⟩ : String) ++ e1) (some ".jpg") false
        = get_output_path src out
          (src ++ "/" ++ (⟨stem' ++ [c0]⟩ : String) ++ e2) (some ".jpg") false)
    ∧ process_media_fs "/In" "/Out" [⟨"photo.png", true⟩, ⟨"photo.arw", true⟩] []
        = (["/Out/photo.jpg"], [FileEvent.processed, FileEvent.skippedExisting]) := by
  constructor
  · intro src out stem' c0 e1 e2 he1 he2 hc hc'
    have key : ∀ (e : String), e ∈ imageExts →
        get_output_path src out
            (src ++ "/" ++ (⟨stem' ++ [c0]⟩ : String) ++ e) (some ".jpg") false
          = out ++ "/" ++ (⟨stem' ++ [c0]⟩ : String) ++ ".jpg" := by
      intro e he
      obtain ⟨tail, hdata, ht, ht'⟩ := imageExt_shape he
      have hin : src ++ "/" ++ (⟨stem' ++ [c0]⟩ : String) ++ e
          = src ++ "/" ++ (⟨(stem' ++ [c0]) ++ '.' :: tail⟩ : String) :=
        stringDataEq (by simp [String.data_append, hdata])
      rw [hin]
      exact (get_output_path_under src out ".jpg" stem' c0 tail hc hc' ht ht'
        (by decide)).1
    rw [key e1 he1, key e2 he2]
  · decide

/-! ### Helper lemmas for dispatcher idempotence -/

/-- The effect of one loop iteration on the set of existing outputs. -/
def stepState (src out : String) (f : SrcFile) (st : List String) : List String :=
  if classify f.rel = MediaKind.unsupported then st
  else if outPathFor src out f ∈ st then st
  else if f.succeeds then outPathFor src out f :: st else st

theorem process_media_fs_state_eq (src out : String) (f : SrcFile)
    (fs : List SrcFile) (st : List String) :
    (process_media_fs src out (f :: fs) st).1
      = (process_media_fs src out fs (stepState src out f st)).1 := by
  cases hk : classify f.rel <;>
    simp only [process_media_fs, hk, stepState] <;>
    by_cases hop : outPathFor src out f ∈ st <;>
    by_cases hs : f.succeeds <;>
    simp [hop, hs, hk]

theorem stepState_mono (src out : String) (f : SrcFile) (st : List String)
    (x : String) (hx : x ∈ st) : x ∈ stepState src out f st := by
  unfold stepState
  split_ifs <;> first | exact hx | exact List.mem_cons_of_mem _ hx

theorem stepState_creates (src out : String) (f : SrcFile) (st : List String)
    (hk : classify f.rel ≠ MediaKind.unsupported) (hs : f.succeeds = true) :
    outPathFor src out f ∈ stepState src out f st := by
  unfold stepState
  split_ifs with h1 h2
  · exact absurd h1 hk
  · exact h2
  · exact List.mem_cons_self _ _

theorem stepState_stable (src out : String) (f : SrcFile) (st : List String)
    (h : classify f.rel ≠ MediaKind.unsupported → f.succeeds = true →
      outPathFor src out f ∈ st) :
    stepState src out f st = st := by
  unfold stepState
  split_ifs with h1 h2 h3 <;> first | rfl | exact absurd (h h1 h3) h2

theorem process_media_fs_mono (src out : String) :
    ∀ (fs : List SrcFile) (st : List String) (x : String), x ∈ st →
      x ∈ (process_media_fs src out fs st).1
  | [], _, _, hx => hx
  | f :: fs, st, x, hx => by
    rw [process_media_fs_state_eq]
    exact process_media_fs_mono src out fs _ x (stepState_mono src out f st x hx)

theorem process_media_fs_creates (src out : String) :
    ∀ (fs : List SrcFile) (st : List String) (f : SrcFile), f ∈ fs →
      classify f.rel ≠ MediaKind.unsupported → f.succeeds = true →
      outPathFor src out f ∈ (process_media_fs src out fs st).1
  | g :: fs, st, f, hf, hk, hs => by
    rw [process_media_fs_state_eq]
    rcases List.mem_cons.mp hf with rfl | htail
    · exact process_media_fs_mono src out fs _ _
        (stepState_creates src out f st hk hs)
    · exact process_media_fs_creates src out fs _ f htail hk hs

theorem process_media_fs_stable (src out : String) :
    ∀ (fs : List SrcFile) (st : List String),
      (∀ f ∈ fs, classify f.rel ≠ MediaKind.unsupported → f.succeeds = true →
        outPathFor src out f ∈ st) →
      (process_media_fs src out fs st).1 = st
  | [], _, _ => rfl
  | f :: fs, st, h => by
    rw [process_media_fs_state_eq,
      stepState_stable src out f st (h f (List.mem_cons_self f fs))]
    exact process_media_fs_stable src out fs st
      (fun g hg => h g (List.mem_cons_of_mem f hg))

/-- C5: a matched file whose computed output path already exists is skipped
(the state of existing outputs is untouched and the file's event is a
skip), and a second dispatcher run over the same file list creates no
output file: the state after running twice equals the state after running
once. -/
theorem dispatcher_skip_and_idempotent (src out : String) (fs : List SrcFile)
    (st : List String) :
    (∀ (f : SrcFile) (fs' : List SrcFile),
      classify f.rel ≠ MediaKind.unsupported → outPathFor src out f ∈ st →
      process_media_fs src out (f :: fs') st
        = ((process_media_fs src out fs' st).1,
           FileEvent.skippedExisting :: (process_media_fs src out fs' st).2))
    ∧ (process_media_fs src out fs (process_media_fs src out fs st).1).1
        = (process_media_fs src out fs st).1 := by
  constructor
  · intro f fs' hk hop
    cases hkk : classify f.rel <;> simp [process_media_fs, hkk, hop]
    exact absurd hkk hk
  · exact process_media_fs_stable src out fs _
      (fun f hf hk hs => process_media_fs_creates src out fs st f hf hk hs)

/-- Witness for C5: with `/Out/b.jpg` already existing, `b.jpg` is skipped
with the state untouched, and re-running over `a.png` changes nothing the
second time. -/
theorem dispatcher_skip_and_idempotent_witness :
    process_media_fs "/In" "/Out" [⟨"b.jpg", true⟩] ["/Out/b.jpg"]
      = ((process_media_fs "/In" "/Out" [] ["/Out/b.jpg"]).1,
         FileEvent.skippedExisting
           :: (process_media_fs "/In" "/Out" [] ["/Out/b.jpg"]).2)
    ∧ (process_media_fs "/In" "/Out" [⟨"a.png", true⟩]
        (process_media_fs "/In" "/Out" [⟨"a.png", true⟩] ["/Out/b.jpg"]).1).1
      = (process_media_fs "/In" "/Out" [⟨"a.png", true⟩] ["/Out/b.jpg"]).1 :=
  ⟨(dispatcher_skip_and_idempotent "/In" "/Out" [⟨"a.png", true⟩]
      ["/Out/b.jpg"]).1 ⟨"b.jpg", true⟩ [] (by decide) (by decide),
   (dispatcher_skip_and_idempotent "/In" "/Out" [⟨"a.png", true⟩]
      ["/Out/b.jpg"]).2⟩

/-- Witness for C9's general part: `photo.png` and `photo.arw` map to the
same output path. -/
theorem same_stem_images_collide_witness :
    get_output_path "/In" "/Out"
        ("/In" ++ "/" ++ (⟨['p', 'h', 'o', 't'] ++ ['o']⟩ : String) ++ ".png")
        (some ".jpg") false
      = get_output_path "/In" "/Out"
        ("/In" ++ "/" ++ (⟨['p', 'h', 'o', 't'] ++ ['o']⟩ : String) ++ ".arw")
        (some ".jpg") false :=
  same_stem_images_collide.1 "/In" "/Out" ['p', 'h', 'o', 't'] 'o'
    ".png" ".arw" (by decide) (by decide) (by decide) (by decide)

end MediaCompressor
